import Mathlib

/-!
Shallow embedding of the real-time chat subsystem of the cv-pvt repository.

The socket gateway (`initializeSocket` in `backend/routes/citizen.js`), the
client chat screen (`ChatPage`), and the direct-message request controller
(`sendDirectMessageRequest` in the citizen controller) are translated into
executable Lean definitions.  Helpers that live in files not present in the
source tree (`backend/utils/socketHelpers.js`, `backend/models/Chat.js`) are
modelled from the specification and are marked as such in their doc comments.
-/

namespace ChatCore

/-! ## JavaScript string and equality primitives -/

/-- Characters removed by JavaScript `String.prototype.trim`
(the common WhiteSpace and LineTerminator code points). -/
def jsWhitespace (c : Char) : Bool :=
  c = ' ' || c = '\t' || c = '\n' || c = '\r' ||
  c = Char.ofNat 11 || c = Char.ofNat 12 || c = Char.ofNat 0xA0

/-- `String.prototype.trim` on the underlying character list. -/
def jsTrimList (l : List Char) : List Char :=
  ((l.dropWhile jsWhitespace).reverse.dropWhile jsWhitespace).reverse

/-- `String.prototype.trim`. -/
def jsTrim (s : String) : String :=
  String.mk (jsTrimList s.data)

/-- JavaScript strict equality `===` between two possibly-absent strings:
`undefined === undefined` is `true`, `undefined === "x"` is `false`. -/
def jsEqOptStr : Option String → Option String → Bool
  | some a, some b => a == b
  | none, none => true
  | _, _ => false

/-- JavaScript strict equality `===` between two possibly-absent ids. -/
def jsEqOptNat : Option Nat → Option Nat → Bool
  | some a, some b => a == b
  | none, none => true
  | _, _ => false

/-- JavaScript truthiness of a possibly-absent string
(`undefined` and the empty string are falsy). -/
def jsTruthy : Option String → Bool
  | some s => s ≠ ""
  | none => false

/-! ## Data model

Chat rooms and messages as used by the gateway.  The message schema is
modelled from the spec (the mongoose `Chat` model file is not in the source
tree): a message carries a store-assigned id, sender, content, type, creation
timestamp and the set of participants that have read it. -/

structure Participant where
  user : String
  role : String
  deriving Repr, DecidableEq

structure StoredMessage where
  mid : Nat
  sender : String
  content : String
  messageType : String
  timestamp : Nat
  readBy : List String
  deriving Repr, DecidableEq

structure LastMsg where
  sender : String
  content : String
  timestamp : Nat
  deriving Repr, DecidableEq

structure Chat where
  chatId : String
  participants : List Participant
  chatType : String
  status : String
  messages : List StoredMessage
  lastMessage : Option LastMsg
  deriving Repr, DecidableEq

/-- `Chat.findOne({ chatId })`. -/
def findChat (store : List Chat) (chatId : String) : Option Chat :=
  store.find? (fun c => c.chatId == chatId)

/-- Replace the chat with the given key (after a mutating `chat.save()`). -/
def updateChat (store : List Chat) (chatId : String) (c' : Chat) : List Chat :=
  store.map (fun c => if c.chatId == chatId then c' else c)

/-! ## Process-local registries

`activeChatRooms` maps a chat id to the `Set` of socket ids currently joined;
the socket.io room table (`socket.join` / `io.to`) is modelled the same way. -/

abbrev Registry := List (String × List String)

/-- `Set.prototype.add`: insert a socket id if absent. -/
def setAdd (l : List String) (sid : String) : List String :=
  if sid ∈ l then l else sid :: l

/-- `join_chat` bookkeeping: create the entry if needed, then add the socket. -/
def roomAdd (r : Registry) (chatId sid : String) : Registry :=
  if r.any (fun p => p.1 == chatId) then
    r.map (fun p => if p.1 == chatId then (p.1, setAdd p.2 sid) else p)
  else
    r ++ [(chatId, [sid])]

/-- `leave_chat` bookkeeping: delete the socket from the entry for `chatId`
and delete the entry once its set becomes empty. -/
def roomRemove (r : Registry) (chatId sid : String) : Registry :=
  r.filterMap (fun p =>
    if p.1 == chatId then
      if (p.2.filter (fun s => s ≠ sid)).isEmpty then none
      else some (p.1, p.2.filter (fun s => s ≠ sid))
    else some p)

/-- `disconnect` bookkeeping: delete the socket from every entry and delete
entries whose set becomes empty. -/
def roomsDisconnect (r : Registry) (sid : String) : Registry :=
  r.filterMap (fun p =>
    if (p.2.filter (fun s => s ≠ sid)).isEmpty then none
    else some (p.1, p.2.filter (fun s => s ≠ sid)))

/-- Is the socket currently joined to the room? -/
def roomHas (r : Registry) (chatId sid : String) : Bool :=
  r.any (fun p => p.1 == chatId && sid ∈ p.2)

/-! ## Protocol payloads

Server→client event payloads.  Fields that a JavaScript object may simply
not carry (`tempId` on `message_sent` and `new_message`, `_id` on an
optimistic client message) are `Option`s, with `none` for an absent
property. -/

/-- The `messageToSend` object broadcast as `new_message`. -/
structure NewMsgData where
  mid : Option Nat
  chatId : String
  content : String
  messageType : String
  senderId : String
  senderName : String
  senderRole : String
  timestamp : Nat
  isRead : Bool
  tempId : Option String
  deriving Repr, DecidableEq

/-- The `message_sent` confirmation payload. -/
structure MessageSentData where
  success : Bool
  messageId : Nat
  timestamp : Nat
  tempId : Option String
  deriving Repr, DecidableEq

inductive SPayload where
  | errorMsg (message : String)
  | chatJoined (chatId : String) (success : Bool)
  | messagesRead (chatId : String) (readBy : String) (messageIds : Option (List Nat))
  | newMessage (d : NewMsgData)
  | messageSent (d : MessageSentData)
  deriving Repr, DecidableEq

/-- Emission target: `socket.emit` (back to the initiating connection),
`io.to(room).emit` (every socket joined to the room), or
`socket.to(room).emit` (every socket joined to the room except the sender). -/
inductive Target where
  | toSender
  | toRoom (chatId : String)
  | toRoomOthers (chatId : String)
  deriving Repr, DecidableEq

structure OutEvent where
  target : Target
  payload : SPayload
  deriving Repr, DecidableEq

def isErrorEv (e : OutEvent) : Bool :=
  match e.payload with
  | .errorMsg _ => true
  | _ => false

def isNewMessageEv (e : OutEvent) : Bool :=
  match e.payload with
  | .newMessage _ => true
  | _ => false

def isMessageSentEv (e : OutEvent) : Bool :=
  match e.payload with
  | .messageSent _ => true
  | _ => false

/-- Does the given socket receive this event?  Fan-out semantics of the three
emission targets, given the room table and the initiating socket. -/
def deliversTo (rooms : Registry) (senderSid sid : String) (e : OutEvent) : Bool :=
  match e.target with
  | .toSender => sid == senderSid
  | .toRoom c => roomHas rooms c sid
  | .toRoomOthers c => roomHas rooms c sid && sid != senderSid

/-! ## Gateway state -/

structure GatewayState where
  store : List Chat
  nextMsgId : Nat
  rooms : Registry
  activeChatRooms : Registry
  rateState : List (String × List Nat)
  activeUsers : List (String × String)
  deriving Repr, DecidableEq

/-! ## Collaborators modelled from the spec

These functions live in `backend/utils/socketHelpers.js` and
`backend/models/Chat.js`, which are not in the source tree. -/

/-- Modelled from the spec: the Access Control Guard
`isMember(roomKey, userIdentity)` consumed as `validateChatAccess`.  Looks up
the room by key, checks the identity appears in its participant set, and
returns `false` when the room does not exist. -/
def validateChatAccess (store : List Chat) (chatId uid : String) : Bool :=
  match findChat store chatId with
  | some c => c.participants.any (fun p => p.user == uid)
  | none => false

/-- Modelled from the spec: `Chat.markAsRead(userId, messageIds?)`.  With no
explicit id list, every message unread by the user is marked read; with one,
the listed messages are. -/
def markAsRead (uid : String) (mids : Option (List Nat)) (c : Chat) : Chat :=
  { c with messages := c.messages.map (fun m =>
      match mids with
      | none => if uid ∈ m.readBy then m else { m with readBy := uid :: m.readBy }
      | some ids =>
          if m.mid ∈ ids ∧ uid ∉ m.readBy then { m with readBy := uid :: m.readBy } else m) }

/-- Modelled from the spec: the Chat Store's
`appendMessage(roomKey, sender, content, type)` consumed as
`saveMessageToDatabase`.  Appends a message with a store-assigned id to the
room's message list, storing the content as given; `none` when the room does
not exist. -/
def saveMessageToDatabase (store : List Chat) (nextMsgId : Nat)
    (chatId uid content messageType : String) (now : Nat) :
    Option (List Chat × StoredMessage) :=
  match findChat store chatId with
  | none => none
  | some c =>
      let saved : StoredMessage :=
        { mid := nextMsgId, sender := uid, content := content,
          messageType := messageType, timestamp := now, readBy := [] }
      some (updateChat store chatId { c with messages := c.messages ++ [saved] }, saved)

/-- Modelled from the spec: the Rate Limiter `allow(senderIdentity)` for one
sender's sliding window — prune timestamps older than the window `W`, allow
when fewer than `N` remain, and record the timestamp of each allowed call. -/
def rateAllow (N W : Nat) (ts : List Nat) (now : Nat) : Bool × List Nat :=
  let ts' := ts.filter (fun t => now < t + W)
  if ts'.length < N then (true, now :: ts') else (false, ts')

/-- Modelled from the spec: `checkMessageRateLimit(userId)` — the sliding
window is keyed per sender across all rooms. -/
def checkMessageRateLimit (N W : Nat) (rs : List (String × List Nat))
    (uid : String) (now : Nat) : Bool × List (String × List Nat) :=
  let ts := ((rs.find? (fun p => p.1 == uid)).map (fun p => p.2)).getD []
  let (ok, ts') := rateAllow N W ts now
  if rs.any (fun p => p.1 == uid) then
    (ok, rs.map (fun p => if p.1 == uid then (p.1, ts') else p))
  else
    (ok, rs ++ [(uid, ts')])

/-! ## Gateway event handlers

Each handler is a function from the gateway state and the event payload to
the new state and the list of emitted events, following
`socket.on(...)` in `initializeSocket`. -/

/-- `socket.on("join_chat")`.  (`socket.join` and the registry insertion do
not touch the store, so the `Chat.findOne` lookup reads `st.store`.) -/
def joinChat (st : GatewayState) (sid uid : String) (chatId : String) :
    GatewayState × List OutEvent :=
  if validateChatAccess st.store chatId uid then
    match findChat st.store chatId with
    | some chat =>
        ({ st with rooms := roomAdd st.rooms chatId sid,
                   activeChatRooms := roomAdd st.activeChatRooms chatId sid,
                   store := updateChat st.store chatId (markAsRead uid none chat) },
         [⟨.toRoomOthers chatId, .messagesRead chatId uid none⟩,
          ⟨.toSender, .chatJoined chatId true⟩])
    | none =>
        ({ st with rooms := roomAdd st.rooms chatId sid,
                   activeChatRooms := roomAdd st.activeChatRooms chatId sid },
         [⟨.toSender, .chatJoined chatId true⟩])
  else
    (st, [⟨.toSender, .errorMsg "Access denied to chat room"⟩])

/-- `socket.on("leave_chat")`. -/
def leaveChat (st : GatewayState) (sid : String) (chatId : String) : GatewayState :=
  { st with rooms := roomRemove st.rooms chatId sid,
            activeChatRooms := roomRemove st.activeChatRooms chatId sid }

/-- `socket.on("disconnect")`. -/
def disconnect (st : GatewayState) (sid : String) : GatewayState :=
  { st with activeUsers := st.activeUsers.filter (fun p => p.1 ≠ sid),
            rooms := roomsDisconnect st.rooms sid,
            activeChatRooms := roomsDisconnect st.activeChatRooms sid }

/-- The `messageData` object emitted by the client as `send_message`.  The
server-side handler destructures only `chatId`, `content` and `messageType`;
`tempId` is present on the wire but never read by the gateway. -/
structure SendPayload where
  chatId : String
  content : String
  messageType : String := "text"
  tempId : Option String
  deriving Repr, DecidableEq

/-- `socket.on("send_message")`.  `persistOk` models availability of the
external document store: when false, the awaited store write throws and the
handler lands in its catch block. -/
def sendMessage (N W : Nat) (st : GatewayState) (uid uname urole : String)
    (p : SendPayload) (now : Nat) (persistOk : Bool) :
    GatewayState × List OutEvent :=
  if jsTrim p.content == "" then
    (st, [⟨.toSender, .errorMsg "Message content cannot be empty"⟩])
  else if p.content.length > 1000 then
    (st, [⟨.toSender, .errorMsg "Message too long. Maximum 1000 characters."⟩])
  else if !(checkMessageRateLimit N W st.rateState uid now).1 then
    ({ st with rateState := (checkMessageRateLimit N W st.rateState uid now).2 },
     [⟨.toSender, .errorMsg "Message rate limit exceeded. Please slow down."⟩])
  else if !validateChatAccess st.store p.chatId uid then
    ({ st with rateState := (checkMessageRateLimit N W st.rateState uid now).2 },
     [⟨.toSender, .errorMsg "Chat not found or access denied"⟩])
  else if !persistOk then
    ({ st with rateState := (checkMessageRateLimit N W st.rateState uid now).2 },
     [⟨.toSender, .errorMsg "Failed to send message"⟩])
  else
    match saveMessageToDatabase st.store st.nextMsgId p.chatId uid p.content
        p.messageType now with
    | none =>
        ({ st with rateState := (checkMessageRateLimit N W st.rateState uid now).2 },
         [⟨.toSender, .errorMsg "Failed to send message"⟩])
    | some (store', saved) =>
        ({ st with rateState := (checkMessageRateLimit N W st.rateState uid now).2,
                   store := store', nextMsgId := st.nextMsgId + 1 },
         [⟨.toRoom p.chatId, .newMessage
            { mid := some saved.mid, chatId := p.chatId, content := saved.content,
              messageType := saved.messageType, senderId := uid, senderName := uname,
              senderRole := urole, timestamp := saved.timestamp, isRead := false,
              tempId := none }⟩,
          ⟨.toSender, .messageSent
            { success := true, messageId := saved.mid,
              timestamp := saved.timestamp, tempId := none }⟩])

/-- `socket.on("mark_messages_read")`.  On access denial the handler
returns without emitting anything. -/
def markMessagesRead (st : GatewayState) (uid : String) (chatId : String)
    (messageIds : Option (List Nat)) : GatewayState × List OutEvent :=
  if !validateChatAccess st.store chatId uid then
    (st, [])
  else
    match findChat st.store chatId with
    | some chat =>
        ({ st with store := updateChat st.store chatId (markAsRead uid messageIds chat) },
         [⟨.toRoomOthers chatId, .messagesRead chatId uid messageIds⟩])
    | none => (st, [])

/-! ## Direct-chat room creation (`sendDirectMessageRequest`) -/

/-- The deterministic direct-chat room key:
`` `direct_${[a, b].sort().join("_")}` `` — the two participant identities in
lexicographic order. -/
def directChatKey (a b : String) : String :=
  if a ≤ b then "direct_" ++ a ++ "_" ++ b else "direct_" ++ b ++ "_" ++ a

/-- The room-creation part of `sendDirectMessageRequest`: look the room up by
its deterministic key and create a new pending chat (seeded with the initial
message) only when none exists; an existing room is returned unchanged. -/
def getOrCreatePendingDirectChat (store : List Chat) (citizenId lawyerId : String)
    (message : Option String) (now : Nat) : List Chat × String :=
  match findChat store (directChatKey citizenId lawyerId) with
  | some _ => (store, directChatKey citizenId lawyerId)
  | none =>
      (store ++
        [{ chatId := directChatKey citizenId lawyerId,
           participants := [⟨citizenId, "citizen"⟩, ⟨lawyerId, "lawyer"⟩],
           chatType := "direct", status := "pending",
           messages := [{ mid := 0, sender := citizenId,
                          content := message.getD
                            "Hi, I would like to connect with you for legal assistance.",
                          messageType := "text", timestamp := now, readBy := [] }],
           lastMessage := some
             ⟨citizenId,
              message.getD "Hi, I would like to connect with you for legal assistance.",
              now⟩ }],
       directChatKey citizenId lawyerId)

/-! ## Client session controller (`ChatPage`)

The per-chat-screen message list and the socket event handlers that maintain
it.  An optimistic message has `mid = none` (no `_id` yet), a client-generated
`tempId`, and status `"sending"`. -/

structure ClientMsg where
  mid : Option Nat
  tempId : Option String
  chatId : String
  content : String
  senderId : String
  timestamp : Nat
  status : String
  deriving Repr, DecidableEq

/-- The client message built from an incoming `new_message` payload, spread
with an explicit status (`{ ...messageData, status }`). -/
def clientMsgOfData (d : NewMsgData) (status : String) : ClientMsg :=
  { mid := d.mid, tempId := d.tempId, chatId := d.chatId, content := d.content,
    senderId := d.senderId, timestamp := d.timestamp, status := status }

/-- `useSocketEvent('new_message', ...)`: ignore messages for other chats;
if a message with the same `_id`, or a truthy `tempId` equal to the incoming
one, already exists, replace the `tempId`-matching entries in place with the
incoming data at status `"sent"`; otherwise append it with status
`"received"`. -/
def onNewMessage (currentChatId : String) (msgs : List ClientMsg) (d : NewMsgData) :
    List ClientMsg :=
  if d.chatId == currentChatId then
    let messageExists := msgs.any (fun m =>
      jsEqOptNat m.mid d.mid || (jsTruthy m.tempId && jsEqOptStr m.tempId d.tempId))
    if messageExists then
      msgs.map (fun m =>
        if jsEqOptStr m.tempId d.tempId then clientMsgOfData d "sent" else m)
    else
      msgs ++ [clientMsgOfData d "received"]
  else msgs

/-- `useSocketEvent('message_sent', ...)`: when the confirmation carries a
truthy `tempId`, update the matching optimistic entry's persistent id,
status and timestamp in place. -/
def onMessageSent (msgs : List ClientMsg) (d : MessageSentData) : List ClientMsg :=
  if jsTruthy d.tempId then
    msgs.map (fun m =>
      if jsEqOptStr m.tempId d.tempId then
        { m with mid := some d.messageId, status := "sent", timestamp := d.timestamp }
      else m)
  else msgs

/-- The number of displayed messages carrying the given correlation id. -/
def countTempId (msgs : List ClientMsg) (x : String) : Nat :=
  (msgs.filter (fun m => m.tempId == some x)).length

/-- All messages persisted across the store. -/
def storeMessages (s : List Chat) : List StoredMessage :=
  (s.map (fun c => c.messages)).flatten

/-- The registry invariant: every entry holds a non-empty socket set. -/
def regInv (r : Registry) : Prop := ∀ p ∈ r, p.2 ≠ []

/-! ## Helper lemmas -/

theorem mem_setAdd_self (l : List String) (sid : String) : sid ∈ setAdd l sid := by
  unfold setAdd
  split <;> simp_all

theorem setAdd_ne_nil (l : List String) (sid : String) : setAdd l sid ≠ [] := by
  intro h
  exact absurd (h ▸ mem_setAdd_self l sid) (List.not_mem_nil sid)

theorem roomHas_roomAdd (r : Registry) (c s : String) :
    roomHas (roomAdd r c s) c s = true := by
  unfold roomAdd roomHas
  by_cases h : r.any (fun p => p.1 == c) = true
  · rw [if_pos h]
    obtain ⟨p, hp, hpc⟩ := List.any_eq_true.1 h
    refine List.any_eq_true.2
      ⟨(p.1, setAdd p.2 s), List.mem_map.2 ⟨p, hp, by simp [hpc]⟩, ?_⟩
    simp [hpc, mem_setAdd_self]
  · rw [if_neg h]
    exact List.any_eq_true.2 ⟨(c, [s]), List.mem_append.2 (Or.inr (by simp)), by simp⟩

theorem regInv_roomAdd {r : Registry} (h : regInv r) (c s : String) :
    regInv (roomAdd r c s) := by
  unfold roomAdd
  split
  · intro p hp
    obtain ⟨q, hq, hqp⟩ := List.mem_map.1 hp
    by_cases hc : q.1 == c
    · simp only [hc, if_true] at hqp
      exact hqp ▸ setAdd_ne_nil q.2 s
    · simp only [hc, if_false] at hqp  -- hc false branch keeps q
      exact hqp ▸ h q hq
  · intro p hp
    rcases List.mem_append.1 hp with hl | hr
    · exact h p hl
    · simp only [List.mem_singleton] at hr
      simp [hr]

theorem regInv_roomRemove {r : Registry} (h : regInv r) (c s : String) :
    regInv (roomRemove r c s) := by
  intro p hp
  obtain ⟨q, hq, hfq⟩ := List.mem_filterMap.1 hp
  by_cases hc : (q.1 == c) = true
  · rw [if_pos hc] at hfq
    split at hfq
    · exact absurd hfq (by simp)
    · rename_i hne
      obtain rfl := Option.some.inj hfq
      intro hnil
      have hnil' : List.filter (fun x => decide (x ≠ s)) q.2 = [] := hnil
      rw [hnil'] at hne
      exact hne rfl
  · rw [if_neg hc] at hfq
    obtain rfl := Option.some.inj hfq
    exact h q hq

theorem regInv_roomsDisconnect (r : Registry) (s : String) :
    regInv (roomsDisconnect r s) := by
  intro p hp
  obtain ⟨q, _, hfq⟩ := List.mem_filterMap.1 hp
  split at hfq
  · exact absurd hfq (by simp)
  · rename_i hne
    obtain rfl := Option.some.inj hfq
    intro hnil
    have hnil' : List.filter (fun x => decide (x ≠ s)) q.2 = [] := hnil
    rw [hnil'] at hne
    exact hne rfl

theorem findChat_updateChat {store : List Chat} {chatId : String} {c : Chat}
    (c' : Chat) (h : findChat store chatId = some c) (h2 : c'.chatId = chatId) :
    findChat (updateChat store chatId c') chatId = some c' := by
  unfold findChat updateChat at *
  induction store with
  | nil => simp at h
  | cons x rest ih =>
      rw [List.map_cons]
      by_cases hx : (x.chatId == chatId) = true
      · rw [if_pos hx]
        exact List.find?_cons_of_pos _ (by simp [h2])
      · rw [if_neg hx]
        rw [List.find?_cons_of_neg _ (by simp [hx])] at h
        rw [List.find?_cons_of_neg _ (by simp [hx])]
        exact ih h

theorem markAsRead_none_all_read (uid : String) (c : Chat) :
    ∀ m ∈ (markAsRead uid none c).messages, uid ∈ m.readBy := by
  intro m hm
  obtain ⟨q, _, hq⟩ := List.mem_map.1 hm
  by_cases h : uid ∈ q.readBy
  · simp only [h, if_true] at hq
    exact hq ▸ h
  · simp only [h, if_false] at hq
    cases hq
    exact List.mem_cons_self uid q.readBy

theorem validateChatAccess_of_found {store : List Chat} {chatId uid : String} {c : Chat}
    (h : findChat store chatId = some c)
    (hm : c.participants.any (fun p => p.user == uid) = true) :
    validateChatAccess store chatId uid = true := by
  simp [validateChatAccess, h, hm]

/-! ## C4 — idempotent direct-chat room creation -/

theorem directChatKey_comm (a b : String) : directChatKey a b = directChatKey b a := by
  unfold directChatKey
  rcases le_total a b with h | h
  · by_cases h2 : b ≤ a
    · have hab : a = b := le_antisymm h h2
      subst hab
      rfl
    · rw [if_pos h, if_neg h2]
  · by_cases h2 : a ≤ b
    · have hab : a = b := le_antisymm h2 h
      subst hab
      rfl
    · rw [if_neg h2, if_pos h]

theorem getOrCreate_of_found {store : List Chat} {a b : String} {c : Chat}
    (m : Option String) (n : Nat)
    (h : findChat store (directChatKey a b) = some c) :
    getOrCreatePendingDirectChat store a b m n = (store, directChatKey a b) := by
  simp only [getOrCreatePendingDirectChat, h]

theorem getOrCreate_key (store : List Chat) (a b : String) (m : Option String) (n : Nat) :
    (getOrCreatePendingDirectChat store a b m n).2 = directChatKey a b := by
  cases h : findChat store (directChatKey a b) <;>
    simp [getOrCreatePendingDirectChat, h]

theorem getOrCreate_findChat (store : List Chat) (a b : String) (m : Option String) (n : Nat) :
    ∃ c, findChat (getOrCreatePendingDirectChat store a b m n).1 (directChatKey a b) = some c := by
  cases h : findChat store (directChatKey a b) with
  | some c => exact ⟨c, by simp [getOrCreatePendingDirectChat, h]⟩
  | none =>
      refine ⟨{ chatId := directChatKey a b,
                participants := [⟨a, "citizen"⟩, ⟨b, "lawyer"⟩],
                chatType := "direct", status := "pending",
                messages := [{ mid := 0, sender := a,
                               content := m.getD
                                 "Hi, I would like to connect with you for legal assistance.",
                               messageType := "text", timestamp := n, readBy := [] }],
                lastMessage := some
                  ⟨a, m.getD "Hi, I would like to connect with you for legal assistance.",
                   n⟩ }, ?_⟩
      have h' : List.find? (fun c => c.chatId == directChatKey a b) store = none := h
      simp only [getOrCreatePendingDirectChat, findChat, h']
      rw [List.find?_append, h']
      simp [List.find?, Option.or]

/-- C4: the direct-chat room key is the same for both orders of the pair of
participant identities, and a second direct-chat creation request for the
same unordered pair returns the same room key and leaves the store unchanged
(no second room is created). -/
theorem c4_direct_chat_idempotent (store : List Chat) (a b : String)
    (m m' : Option String) (n n' : Nat) :
    directChatKey a b = directChatKey b a ∧
    (getOrCreatePendingDirectChat
        (getOrCreatePendingDirectChat store a b m n).1 b a m' n').2
      = (getOrCreatePendingDirectChat store a b m n).2 ∧
    (getOrCreatePendingDirectChat
        (getOrCreatePendingDirectChat store a b m n).1 b a m' n').1
      = (getOrCreatePendingDirectChat store a b m n).1 := by
  obtain ⟨c, hc⟩ := getOrCreate_findChat store a b m n
  have hc' : findChat (getOrCreatePendingDirectChat store a b m n).1 (directChatKey b a)
      = some c := by rw [← directChatKey_comm a b]; exact hc
  have hsecond := getOrCreate_of_found (a := b) (b := a) m' n' hc'
  refine ⟨directChatKey_comm a b, ?_, ?_⟩
  · rw [hsecond, getOrCreate_key, ← directChatKey_comm a b]
  · rw [hsecond]

/-! ## C9 — the active-chat-room registry invariant -/

/-- C9: every gateway handler preserves the invariant that each entry of the
process-local `activeChatRooms` registry holds a non-empty set of sockets:
`join_chat` inserts the joining socket (creating the entry if needed), and
`leave_chat` and `disconnect` remove the socket and delete entries that
become empty. -/
theorem c9_registry_nonempty_invariant (st : GatewayState) (sid uid chatId : String)
    (h : regInv st.activeChatRooms) :
    regInv (joinChat st sid uid chatId).1.activeChatRooms ∧
    regInv (leaveChat st sid chatId).activeChatRooms ∧
    regInv (disconnect st sid).activeChatRooms := by
  refine ⟨?_, regInv_roomRemove h chatId sid, regInv_roomsDisconnect _ sid⟩
  unfold joinChat
  split
  · split <;> exact regInv_roomAdd h chatId sid
  · exact h

/-- Witness for C9 at a concrete state. -/
theorem c9_witness :
    regInv (GatewayState.mk [] 0 [] [("c1", ["s1"])] [] []).activeChatRooms ∧
    (regInv (joinChat (GatewayState.mk [] 0 [] [("c1", ["s1"])] [] []) "s2" "B" "c1").1.activeChatRooms ∧
     regInv (leaveChat (GatewayState.mk [] 0 [] [("c1", ["s1"])] [] []) "s2" "c1").activeChatRooms ∧
     regInv (disconnect (GatewayState.mk [] 0 [] [("c1", ["s1"])] [] []) "s2").activeChatRooms) :=
  ⟨by simp [regInv], c9_registry_nonempty_invariant _ "s2" "B" "c1" (by simp [regInv])⟩

/-! ## C7 — sliding-window rate limiting -/

/-- A sequence of send-permission checks by one sender at the given times,
threading the limiter state. -/
def rateRun (N W : Nat) (uid : String) (rs : List (String × List Nat)) :
    List Nat → List Bool × List (String × List Nat)
  | [] => ([], rs)
  | t :: ts =>
      ((checkMessageRateLimit N W rs uid t).1 ::
         (rateRun N W uid (checkMessageRateLimit N W rs uid t).2 ts).1,
       (rateRun N W uid (checkMessageRateLimit N W rs uid t).2 ts).2)

theorem filter_replicate_true {n : Nat} {a : Nat} {p : Nat → Bool} (h : p a = true) :
    (List.replicate n a).filter p = List.replicate n a := by
  induction n with
  | zero => rfl
  | succ k ih => simp [List.replicate_succ, List.filter_cons, h, ih]

theorem filter_replicate_false {n : Nat} {a : Nat} {p : Nat → Bool} (h : p a = false) :
    (List.replicate n a).filter p = [] := by
  induction n with
  | zero => rfl
  | succ k ih => simp [List.replicate_succ, List.filter_cons, h, ih]

theorem checkRate_step {N W j : Nat} {uid : String} {t : Nat}
    (hW : 0 < W) (hj : j < N) :
    checkMessageRateLimit N W [(uid, List.replicate j t)] uid t
      = (true, [(uid, List.replicate (j + 1) t)]) := by
  have hfil : (List.replicate j t).filter (fun x => decide (t < x + W))
      = List.replicate j t :=
    filter_replicate_true (by simp only [decide_eq_true_eq]; omega)
  unfold checkMessageRateLimit rateAllow
  simp [List.find?, hfil, hj, List.replicate_succ]

theorem rateRun_replicate {N W : Nat} {uid : String} {t : Nat} (hW : 0 < W) :
    ∀ k j, j + k ≤ N →
      rateRun N W uid [(uid, List.replicate j t)] (List.replicate k t)
        = (List.replicate k true, [(uid, List.replicate (j + k) t)]) := by
  intro k
  induction k with
  | zero => intro j _; simp [rateRun]
  | succ m ih =>
      intro j hjk
      have hj : j < N := by omega
      have hstep := @checkRate_step N W j uid t hW hj
      have hrest := ih (j + 1) (by omega)
      have hidx : j + 1 + m = j + (m + 1) := by omega
      rw [List.replicate_succ]
      simp only [rateRun, hstep, hrest, hidx]
      simp [List.replicate_succ]

theorem rateRun_append (N W : Nat) (uid : String) :
    ∀ (l1 : List Nat) (rs : List (String × List Nat)) (l2 : List Nat),
      (rateRun N W uid rs (l1 ++ l2)).1
        = (rateRun N W uid rs l1).1
          ++ (rateRun N W uid (rateRun N W uid rs l1).2 l2).1 := by
  intro l1
  induction l1 with
  | nil => intro rs l2; simp [rateRun]
  | cons x xs ih => intro rs l2; simp [rateRun, ih]

/-- C7: with a configured limit of `N` sends per sliding window `W` keyed per
sender, `N` sends at time `t` are all allowed, an `(N+1)`-th send at any time
`u` still inside the window is rejected, and a send at a time `v` at least
`W` after the earlier sends is allowed again. -/
theorem c7_rate_limit_window (N W t u v : Nat) (uid : String)
    (hN : 0 < N) (hW : 0 < W) (hu : u < t + W) (hv : t + W ≤ v) :
    (rateRun N W uid [] (List.replicate N t ++ [u, v])).1
      = List.replicate N true ++ [false, true] := by
  obtain ⟨n, rfl⟩ : ∃ n, N = n + 1 := ⟨N - 1, by omega⟩
  have hfirst : checkMessageRateLimit (n + 1) W [] uid t
      = (true, [(uid, [t])]) := by
    simp [checkMessageRateLimit, rateAllow, List.find?]
  have hrest : rateRun (n + 1) W uid [(uid, [t])] (List.replicate n t)
      = (List.replicate n true, [(uid, List.replicate (n + 1) t)]) := by
    have h1n : (1 : Nat) + n = n + 1 := by omega
    have := @rateRun_replicate (n + 1) W uid t hW n 1 (by omega)
    rw [h1n] at this
    simpa using this
  have hdeny : checkMessageRateLimit (n + 1) W [(uid, List.replicate (n + 1) t)] uid u
      = (false, [(uid, List.replicate (n + 1) t)]) := by
    have hfil : (List.replicate (n + 1) t).filter (fun x => decide (u < x + W))
        = List.replicate (n + 1) t :=
      filter_replicate_true (by simp only [decide_eq_true_eq]; omega)
    unfold checkMessageRateLimit rateAllow
    simp [List.find?, hfil]
  have hallow : checkMessageRateLimit (n + 1) W [(uid, List.replicate (n + 1) t)] uid v
      = (true, [(uid, [v])]) := by
    have hfil : (List.replicate (n + 1) t).filter (fun x => decide (v < x + W))
        = [] :=
      filter_replicate_false (by simp only [decide_eq_false_iff_not]; omega)
    unfold checkMessageRateLimit rateAllow
    simp [List.find?, hfil]
  rw [List.replicate_succ, List.cons_append]
  simp only [rateRun, hfirst]
  rw [rateRun_append (n + 1) W uid (List.replicate n t) [(uid, [t])] [u, v]]
  simp only [hrest, rateRun, hdeny, hallow]
  simp [List.replicate_succ]

/-- Witness for C7 with a limit of 2 per 3600-unit window. -/
theorem c7_witness :
    (0 : Nat) < 2 ∧ (0 : Nat) < 3600 ∧ (1 : Nat) < 0 + 3600 ∧ (0 : Nat) + 3600 ≤ 3600 ∧
    (rateRun 2 3600 "A" [] (List.replicate 2 0 ++ [1, 3600])).1
      = List.replicate 2 true ++ [false, true] :=
  ⟨by decide, by decide, by decide, by decide,
   c7_rate_limit_window 2 3600 0 1 3600 "A" (by decide) (by decide) (by decide) (by decide)⟩

/-! ## Concrete example state shared by the witnesses -/

/-- An active direct chat between users A and B with one message from B. -/
def exChat : Chat :=
  { chatId := "c1", participants := [⟨"A", "citizen"⟩, ⟨"B", "lawyer"⟩],
    chatType := "direct", status := "active",
    messages := [{ mid := 0, sender := "B", content := "Hi", messageType := "text",
                   timestamp := 1, readBy := ["B"] }],
    lastMessage := none }

/-- A gateway state holding just that chat. -/
def exState : GatewayState :=
  { store := [exChat], nextMsgId := 1, rooms := [], activeChatRooms := [],
    rateState := [], activeUsers := [] }

/-! ## C2 — access denial on join, send and mark-read -/

/-- Counterexample for C2 as stated: user C is not a participant of the
existing room `c1`, yet `mark_messages_read` delivers no error event at all
(the handler returns silently), so not every one of the three events causes
an `AccessDenied` error to be delivered back. -/
theorem c2_mark_read_silent_counterexample :
    validateChatAccess exState.store "c1" "C" = false ∧
    findChat exState.store "c1" = some exChat ∧
    (markMessagesRead exState "C" "c1" none).2 = [] :=
  ⟨by decide, by decide, by decide⟩

/-- C2 (amended): for a user not in the participant set of an existing room,
`join_chat` and `send_message` each deliver an error event back to that user
(and change no state other than the limiter window), while
`mark_messages_read` is silently ignored: no event is delivered and the state
is unchanged. -/
theorem c2_access_denied_amended (st : GatewayState) (sid uid chatId : String)
    (c : Chat) (hfound : findChat st.store chatId = some c)
    (hno : ∀ p ∈ c.participants, p.user ≠ uid) :
    joinChat st sid uid chatId
      = (st, [⟨.toSender, .errorMsg "Access denied to chat room"⟩]) ∧
    (∀ N W uname urole content mt tid now persistOk,
      jsTrim content ≠ "" → content.length ≤ 1000 →
      (checkMessageRateLimit N W st.rateState uid now).1 = true →
      (sendMessage N W st uid uname urole ⟨chatId, content, mt, tid⟩ now persistOk).2
        = [⟨.toSender, .errorMsg "Chat not found or access denied"⟩]) ∧
    (∀ mids, markMessagesRead st uid chatId mids = (st, [])) := by
  have hacc : validateChatAccess st.store chatId uid = false := by
    unfold validateChatAccess
    rw [hfound]
    simp only [List.any_eq_false]
    intro p hp
    simp [hno p hp]
  refine ⟨by simp [joinChat, hacc], ?_, by intro mids; simp [markMessagesRead, hacc]⟩
  intro N W uname urole content mt tid now persistOk h1 h2 h3
  have hlen : ¬(content.length > 1000) := by omega
  simp [sendMessage, h1, hlen, h3, hacc]

/-- Witness for C2 (amended) at the concrete state: user C against room
`c1` of A and B. -/
theorem c2_witness :
    joinChat exState "s9" "C" "c1"
      = (exState, [⟨.toSender, .errorMsg "Access denied to chat room"⟩]) ∧
    (sendMessage 2 3600 exState "C" "Carol" "citizen"
        ⟨"c1", "Hello", "text", some "t9"⟩ 5 true).2
      = [⟨.toSender, .errorMsg "Chat not found or access denied"⟩] ∧
    markMessagesRead exState "C" "c1" none = (exState, []) := by
  have h := c2_access_denied_amended exState "s9" "C" "c1" exChat (by decide) (by decide)
  exact ⟨h.1, h.2.1 2 3600 "Carol" "citizen" "Hello" "text" (some "t9") 5 true
          (by decide) (by decide) (by decide), h.2.2 none⟩

/-! ## C1 — the delivery confirmation and the correlation id -/

/-- C1 (code behaviour at the failing input): a successful `send_message`
carrying `tempId = "t1"` produces a `message_sent` confirmation that carries
the store-assigned id and timestamp but no `tempId` at all — the gateway
never reads the client correlation id, so the confirmation cannot carry it. -/
theorem c1_message_sent_lacks_tempId :
    (sendMessage 2 3600 exState "A" "Alice" "citizen"
        { chatId := "c1", content := "Hello", messageType := "text", tempId := some "t1" }
        100 true).2
      = [⟨.toRoom "c1", .newMessage
            { mid := some 1, chatId := "c1", content := "Hello", messageType := "text",
              senderId := "A", senderName := "Alice", senderRole := "citizen",
              timestamp := 100, isRead := false, tempId := none }⟩,
         ⟨.toSender, .messageSent
            { success := true, messageId := 1, timestamp := 100, tempId := none }⟩] ∧
    (some "t1" : Option String) ≠ none :=
  ⟨by decide, by decide⟩

/-! ## C3 — failed sends are isolated -/

theorem err_singleton_no_new (msg : String) :
    ¬ ∃ e ∈ [OutEvent.mk Target.toSender (SPayload.errorMsg msg)],
        isNewMessageEv e = true := by
  rintro ⟨e, he, hne⟩
  simp only [List.mem_singleton] at he
  subst he
  simp [isNewMessageEv] at hne

theorem err_singleton_props (msg : String) :
    (∃ m, [OutEvent.mk Target.toSender (SPayload.errorMsg msg)]
        = [OutEvent.mk Target.toSender (SPayload.errorMsg m)]) ∧
    (∀ e ∈ [OutEvent.mk Target.toSender (SPayload.errorMsg msg)],
      isNewMessageEv e = false ∧ isMessageSentEv e = false) := by
  refine ⟨⟨msg, rfl⟩, ?_⟩
  intro e he
  simp only [List.mem_singleton] at he
  subst he
  exact ⟨rfl, rfl⟩

/-- C3: whenever `send_message` emits an error (empty content, over-length
content, rate limiting, access denial, or persistence failure), the only
emitted event is a single error event to the sending connection, no message
is persisted, and nothing is broadcast; conversely a `new_message` broadcast
can only occur after the persistence write succeeded, with the saved message
present in the post store. -/
theorem c3_send_failure_isolated (N W : Nat) (st : GatewayState)
    (uid uname urole : String) (p : SendPayload) (now : Nat) (persistOk : Bool) :
    ((∃ e ∈ (sendMessage N W st uid uname urole p now persistOk).2, isErrorEv e = true) →
      (∃ msg, (sendMessage N W st uid uname urole p now persistOk).2
          = [⟨Target.toSender, SPayload.errorMsg msg⟩]) ∧
      storeMessages (sendMessage N W st uid uname urole p now persistOk).1.store
        = storeMessages st.store ∧
      (∀ e ∈ (sendMessage N W st uid uname urole p now persistOk).2,
        isNewMessageEv e = false ∧ isMessageSentEv e = false)) ∧
    ((∃ e ∈ (sendMessage N W st uid uname urole p now persistOk).2,
        isNewMessageEv e = true) →
      persistOk = true ∧
      ∃ c, findChat (sendMessage N W st uid uname urole p now persistOk).1.store p.chatId
          = some c ∧
        ∃ m ∈ c.messages, m.content = p.content ∧ m.mid = st.nextMsgId) := by
  unfold sendMessage
  by_cases h1 : (jsTrim p.content == "") = true
  · rw [if_pos h1]
    exact ⟨fun _ => ⟨(err_singleton_props _).1, rfl, (err_singleton_props _).2⟩,
           fun h => absurd h (err_singleton_no_new _)⟩
  · rw [if_neg h1]
    by_cases h2 : p.content.length > 1000
    · rw [if_pos h2]
      exact ⟨fun _ => ⟨(err_singleton_props _).1, rfl, (err_singleton_props _).2⟩,
             fun h => absurd h (err_singleton_no_new _)⟩
    · rw [if_neg h2]
      by_cases h3 : (!(checkMessageRateLimit N W st.rateState uid now).1) = true
      · rw [if_pos h3]
        exact ⟨fun _ => ⟨(err_singleton_props _).1, rfl, (err_singleton_props _).2⟩,
               fun h => absurd h (err_singleton_no_new _)⟩
      · rw [if_neg h3]
        by_cases h4 : (!validateChatAccess st.store p.chatId uid) = true
        · rw [if_pos h4]
          exact ⟨fun _ => ⟨(err_singleton_props _).1, rfl, (err_singleton_props _).2⟩,
                 fun h => absurd h (err_singleton_no_new _)⟩
        · rw [if_neg h4]
          by_cases h5 : (!persistOk) = true
          · rw [if_pos h5]
            exact ⟨fun _ => ⟨(err_singleton_props _).1, rfl, (err_singleton_props _).2⟩,
                   fun h => absurd h (err_singleton_no_new _)⟩
          · rw [if_neg h5]
            have hpo : persistOk = true := by
              revert h5; cases persistOk <;> simp
            cases heq : saveMessageToDatabase st.store st.nextMsgId p.chatId uid
                p.content p.messageType now with
            | none =>
                exact ⟨fun _ => ⟨(err_singleton_props _).1, rfl, (err_singleton_props _).2⟩,
                       fun h => absurd h (err_singleton_no_new _)⟩
            | some pr =>
                obtain ⟨store', saved⟩ := pr
                constructor
                · rintro ⟨e, he, herr⟩
                  simp only [List.mem_cons, List.mem_singleton,
                    List.not_mem_nil, or_false] at he
                  rcases he with rfl | rfl
                  · exact absurd herr (by simp [isErrorEv])
                  · exact absurd herr (by simp [isErrorEv])
                · intro _
                  refine ⟨hpo, ?_⟩
                  unfold saveMessageToDatabase at heq
                  cases hfind : findChat st.store p.chatId with
                  | none => rw [hfind] at heq; exact absurd heq (by simp)
                  | some c0 =>
                      rw [hfind] at heq
                      simp only [Option.some.injEq, Prod.mk.injEq] at heq
                      obtain ⟨hstore, hsaved⟩ := heq
                      have hcid : c0.chatId = p.chatId := by
                        have := List.find?_some hfind
                        exact eq_of_beq this
                      refine ⟨{ c0 with messages := c0.messages ++
                          [{ mid := st.nextMsgId, sender := uid, content := p.content,
                             messageType := p.messageType, timestamp := now,
                             readBy := [] }] }, ?_, ?_⟩
                      · rw [← hstore]
                        exact findChat_updateChat _ hfind hcid
                      · exact ⟨_, List.mem_append_right _ (List.mem_singleton.2 rfl),
                          rfl, rfl⟩

/-- Witness for C3: an empty-content failure and a successful send at the
concrete state. -/
theorem c3_witness :
    ((∃ msg, (sendMessage 2 3600 exState "A" "Alice" "citizen"
          ⟨"c1", "", "text", none⟩ 5 true).2
        = [⟨Target.toSender, SPayload.errorMsg msg⟩]) ∧
     storeMessages (sendMessage 2 3600 exState "A" "Alice" "citizen"
          ⟨"c1", "", "text", none⟩ 5 true).1.store
        = storeMessages exState.store ∧
     (∀ e ∈ (sendMessage 2 3600 exState "A" "Alice" "citizen"
          ⟨"c1", "", "text", none⟩ 5 true).2,
       isNewMessageEv e = false ∧ isMessageSentEv e = false)) ∧
    (true = true ∧
     ∃ c, findChat (sendMessage 2 3600 exState "A" "Alice" "citizen"
          ⟨"c1", "Hello", "text", none⟩ 5 true).1.store "c1" = some c ∧
       ∃ m ∈ c.messages, m.content = "Hello" ∧ m.mid = exState.nextMsgId) := by
  refine ⟨(c3_send_failure_isolated 2 3600 exState "A" "Alice" "citizen"
      ⟨"c1", "", "text", none⟩ 5 true).1
      ⟨⟨Target.toSender, SPayload.errorMsg "Message content cannot be empty"⟩,
       by decide, by decide⟩,
    (c3_send_failure_isolated 2 3600 exState "A" "Alice" "citizen"
      ⟨"c1", "Hello", "text", none⟩ 5 true).2 ?_⟩
  refine ⟨⟨Target.toRoom "c1", SPayload.newMessage
      { mid := some 1, chatId := "c1", content := "Hello", messageType := "text",
        senderId := "A", senderName := "Alice", senderRole := "citizen",
        timestamp := 5, isRead := false, tempId := none }⟩, by decide, by decide⟩

/-! ## C10 — validation boundaries and raw persistence -/

theorem jsTrim_all_ws {s : String} (h : ∀ ch ∈ s.data, jsWhitespace ch = true) :
    jsTrim s = "" := by
  unfold jsTrim jsTrimList
  have h1 : s.data.dropWhile jsWhitespace = [] :=
    List.dropWhile_eq_nil_iff.2 (by simpa using h)
  rw [h1]
  rfl

theorem dropWhile_head_false {p : Char → Bool} :
    ∀ (l : List Char) (a : Char) (t : List Char),
      l.dropWhile p = a :: t → p a = false := by
  intro l
  induction l with
  | nil => intro a t h; simp [List.dropWhile] at h
  | cons x xs ih =>
      intro a t h
      rw [List.dropWhile_cons] at h
      split at h
      · exact ih a t h
      · rename_i hx
        cases h
        simpa using hx

theorem jsTrim_ne_empty {s : String} (h : ∃ ch ∈ s.data, jsWhitespace ch = false) :
    jsTrim s ≠ "" := by
  intro hcon
  have hdata : ((s.data.dropWhile jsWhitespace).reverse.dropWhile jsWhitespace).reverse
      = [] := congrArg String.data hcon
  rw [List.reverse_eq_nil_iff, List.dropWhile_eq_nil_iff] at hdata
  have hne : s.data.dropWhile jsWhitespace ≠ [] := by
    rw [Ne, List.dropWhile_eq_nil_iff]
    push_neg
    obtain ⟨ch, hch, hws⟩ := h
    exact ⟨ch, hch, by simp [hws]⟩
  obtain ⟨a, t, hal⟩ := List.exists_cons_of_ne_nil hne
  have hhead := dropWhile_head_false _ a t hal
  have hmem : a ∈ (s.data.dropWhile jsWhitespace).reverse := by
    rw [hal]; simp
  have hws := hdata a hmem
  rw [hhead] at hws
  exact absurd hws (by simp)

/-- C10: `send_message` judges emptiness on the trimmed content but the
1000-character bound on the raw content, and it persists the raw content:
whitespace-only content is rejected as empty; content with a non-whitespace
character but raw length over 1000 is rejected as too long (even when
trimming would shorten it below the limit); and a send that passes
validation appends the raw, untrimmed content to the room's messages. -/
theorem c10_validation_boundaries (N W : Nat) (st : GatewayState)
    (uid uname urole : String) (p : SendPayload) (now : Nat) (persistOk : Bool) :
    ((∀ ch ∈ p.content.data, jsWhitespace ch = true) →
      (sendMessage N W st uid uname urole p now persistOk).2
        = [⟨Target.toSender, SPayload.errorMsg "Message content cannot be empty"⟩]) ∧
    ((∃ ch ∈ p.content.data, jsWhitespace ch = false) → p.content.length > 1000 →
      (sendMessage N W st uid uname urole p now persistOk).2
        = [⟨Target.toSender,
            SPayload.errorMsg "Message too long. Maximum 1000 characters."⟩]) ∧
    (∀ c, (∃ ch ∈ p.content.data, jsWhitespace ch = false) →
      p.content.length ≤ 1000 →
      (checkMessageRateLimit N W st.rateState uid now).1 = true →
      findChat st.store p.chatId = some c →
      c.participants.any (fun q => q.user == uid) = true →
      persistOk = true →
      ∃ c', findChat (sendMessage N W st uid uname urole p now persistOk).1.store p.chatId
          = some c' ∧
        c'.messages = c.messages ++
          [⟨st.nextMsgId, uid, p.content, p.messageType, now, []⟩]) := by
  refine ⟨?_, ?_, ?_⟩
  · intro h
    have hb : (jsTrim p.content == "") = true := by simp [jsTrim_all_ws h]
    unfold sendMessage
    rw [if_pos hb]
  · intro h h2
    have hb : (jsTrim p.content == "") = false := by simp [jsTrim_ne_empty h]
    unfold sendMessage
    rw [if_neg (by simp [hb]), if_pos h2]
  · intro c h hlen hrate hfound hmem hpo
    have hb : (jsTrim p.content == "") = false := by simp [jsTrim_ne_empty h]
    have hacc := validateChatAccess_of_found hfound hmem
    have hcid : c.chatId = p.chatId := by
      have hfind : List.find? (fun x => x.chatId == p.chatId) st.store = some c := hfound
      simpa using List.find?_some hfind
    unfold sendMessage
    rw [if_neg (by simp [hb]), if_neg (by omega), if_neg (by simp [hrate]),
      if_neg (by simp [hacc]), if_neg (by simp [hpo])]
    unfold saveMessageToDatabase
    rw [hfound]
    exact ⟨_, findChat_updateChat _ hfound hcid, rfl⟩

/-- A 1001-character content whose trimmed form has 1000 characters. -/
def overlongContent : String := String.mk (List.replicate 1000 'a' ++ [' '])

/-- Witness for C10: whitespace-only content, a 1001-character content that
trimming would shorten to 1000, and a short raw content with surrounding
spaces that is persisted untrimmed. -/
theorem c10_witness :
    (sendMessage 2 3600 exState "A" "Alice" "citizen"
        ⟨"c1", "   ", "text", none⟩ 5 true).2
      = [⟨Target.toSender, SPayload.errorMsg "Message content cannot be empty"⟩] ∧
    (sendMessage 2 3600 exState "A" "Alice" "citizen"
        ⟨"c1", overlongContent, "text", none⟩ 5 true).2
      = [⟨Target.toSender,
          SPayload.errorMsg "Message too long. Maximum 1000 characters."⟩] ∧
    (∃ c', findChat (sendMessage 2 3600 exState "A" "Alice" "citizen"
          ⟨"c1", " a ", "text", none⟩ 5 true).1.store "c1" = some c' ∧
      c'.messages = exChat.messages ++
        [⟨exState.nextMsgId, "A", " a ", "text", 5, []⟩]) := by
  have hdata : overlongContent.data = List.replicate 1000 'a' ++ [' '] := rfl
  have hlong : overlongContent.length = 1001 := by
    show overlongContent.data.length = 1001
    rw [hdata, List.length_append, List.length_replicate]
    rfl
  have hmemA : ('a' : Char) ∈ overlongContent.data := by
    rw [hdata]
    exact List.mem_append.2 (Or.inl (List.mem_replicate.2 ⟨by omega, rfl⟩))
  refine ⟨(c10_validation_boundaries 2 3600 exState "A" "Alice" "citizen"
      ⟨"c1", "   ", "text", none⟩ 5 true).1 (by decide),
    (c10_validation_boundaries 2 3600 exState "A" "Alice" "citizen"
      ⟨"c1", overlongContent, "text", none⟩ 5 true).2.1
      ⟨'a', hmemA, by decide⟩ (by show overlongContent.length > 1000; omega),
    (c10_validation_boundaries 2 3600 exState "A" "Alice" "citizen"
      ⟨"c1", " a ", "text", none⟩ 5 true).2.2 exChat
      ⟨'a', by decide, by decide⟩ (by decide) (by decide) (by decide) (by decide) rfl⟩

/-! ## C8 — effects of joining a room -/

/-- C8: for a member authorized for an existing room, `join_chat` adds the
connection to the room's broadcast group, marks every message in the room
read by that user, notifies the other room members of the reader's identity
and room, and replies to the joiner with a join confirmation. -/
theorem c8_join_chat_effects (st : GatewayState) (sid uid chatId : String) (c : Chat)
    (hfound : findChat st.store chatId = some c)
    (hmem : c.participants.any (fun q => q.user == uid) = true) :
    roomHas (joinChat st sid uid chatId).1.rooms chatId sid = true ∧
    (∃ c', findChat (joinChat st sid uid chatId).1.store chatId = some c' ∧
      ∀ m ∈ c'.messages, uid ∈ m.readBy) ∧
    (joinChat st sid uid chatId).2
      = [⟨Target.toRoomOthers chatId, SPayload.messagesRead chatId uid none⟩,
         ⟨Target.toSender, SPayload.chatJoined chatId true⟩] := by
  have hacc := validateChatAccess_of_found hfound hmem
  have hcid : c.chatId = chatId := by
    have hfind : List.find? (fun x => x.chatId == chatId) st.store = some c := hfound
    simpa using List.find?_some hfind
  have hjoin : joinChat st sid uid chatId
      = ({ st with rooms := roomAdd st.rooms chatId sid,
                   activeChatRooms := roomAdd st.activeChatRooms chatId sid,
                   store := updateChat st.store chatId (markAsRead uid none c) },
         [⟨Target.toRoomOthers chatId, SPayload.messagesRead chatId uid none⟩,
          ⟨Target.toSender, SPayload.chatJoined chatId true⟩]) := by
    unfold joinChat
    rw [if_pos hacc, hfound]
  refine ⟨?_, ⟨markAsRead uid none c, ?_, markAsRead_none_all_read uid c⟩, ?_⟩
  · simp only [hjoin]
    exact roomHas_roomAdd st.rooms chatId sid
  · simp only [hjoin]
    exact findChat_updateChat _ hfound hcid
  · simp only [hjoin]

/-- Witness for C8: user A joins the concrete room `c1`. -/
theorem c8_witness :
    roomHas (joinChat exState "sA" "A" "c1").1.rooms "c1" "sA" = true ∧
    (∃ c', findChat (joinChat exState "sA" "A" "c1").1.store "c1" = some c' ∧
      ∀ m ∈ c'.messages, "A" ∈ m.readBy) ∧
    (joinChat exState "sA" "A" "c1").2
      = [⟨Target.toRoomOthers "c1", SPayload.messagesRead "c1" "A" none⟩,
         ⟨Target.toSender, SPayload.chatJoined "c1" true⟩] :=
  c8_join_chat_effects exState "sA" "A" "c1" exChat (by decide) (by decide)

/-! ## C5 — join followed by send broadcasts exactly once to each member -/

/-- C5: an authorized member who joins a room and immediately sends a valid
message causes exactly one `new_message` delivery to every socket currently
joined to the room — the sender's own socket included, since the join placed
it in the room. -/
theorem c5_join_send_broadcast_once (N W : Nat) (st : GatewayState)
    (sid uid uname urole chatId content mt : String) (tid : Option String)
    (now : Nat) (c : Chat)
    (hfound : findChat st.store chatId = some c)
    (hmem : c.participants.any (fun q => q.user == uid) = true)
    (hne : ∃ ch ∈ content.data, jsWhitespace ch = false)
    (hlen : content.length ≤ 1000)
    (hrate : (checkMessageRateLimit N W st.rateState uid now).1 = true) :
    roomHas (joinChat st sid uid chatId).1.rooms chatId sid = true ∧
    ∀ s, roomHas (joinChat st sid uid chatId).1.rooms chatId s = true →
      ((sendMessage N W (joinChat st sid uid chatId).1 uid uname urole
          ⟨chatId, content, mt, tid⟩ now true).2.filter
        (fun e => deliversTo (joinChat st sid uid chatId).1.rooms sid s e
          && isNewMessageEv e)).length = 1 := by
  have hacc := validateChatAccess_of_found hfound hmem
  have hcid : c.chatId = chatId := by
    have hfind : List.find? (fun x => x.chatId == chatId) st.store = some c := hfound
    simpa using List.find?_some hfind
  have hjoin : joinChat st sid uid chatId
      = ({ st with rooms := roomAdd st.rooms chatId sid,
                   activeChatRooms := roomAdd st.activeChatRooms chatId sid,
                   store := updateChat st.store chatId (markAsRead uid none c) },
         [⟨Target.toRoomOthers chatId, SPayload.messagesRead chatId uid none⟩,
          ⟨Target.toSender, SPayload.chatJoined chatId true⟩]) := by
    unfold joinChat
    rw [if_pos hacc, hfound]
  have hfound1 : findChat (updateChat st.store chatId (markAsRead uid none c)) chatId
      = some (markAsRead uid none c) :=
    findChat_updateChat _ hfound hcid
  have hacc1 : validateChatAccess (updateChat st.store chatId (markAsRead uid none c))
      chatId uid = true :=
    validateChatAccess_of_found hfound1 hmem
  have hb : (jsTrim content == "") = false := by simp [jsTrim_ne_empty hne]
  have hsend : (sendMessage N W
      { st with rooms := roomAdd st.rooms chatId sid,
                activeChatRooms := roomAdd st.activeChatRooms chatId sid,
                store := updateChat st.store chatId (markAsRead uid none c) }
      uid uname urole ⟨chatId, content, mt, tid⟩ now true).2
      = [⟨Target.toRoom chatId, SPayload.newMessage
            ⟨some st.nextMsgId, chatId, content, mt, uid, uname, urole, now, false, none⟩⟩,
         ⟨Target.toSender, SPayload.messageSent ⟨true, st.nextMsgId, now, none⟩⟩] := by
    unfold sendMessage
    rw [if_neg (by simp [hb]), if_neg (by show ¬ content.length > 1000; omega),
      if_neg (by simp [hrate]), if_neg (by simp [hacc1]), if_neg (by simp)]
    unfold saveMessageToDatabase
    rw [hfound1]
  simp only [hjoin]
  refine ⟨roomHas_roomAdd st.rooms chatId sid, ?_⟩
  intro s hs
  rw [hsend]
  simp [List.filter, deliversTo, isNewMessageEv, hs]

/-- Witness for C5: A joins `c1` and sends "Hello"; A's own socket receives
exactly one `new_message`. -/
theorem c5_witness :
    roomHas (joinChat exState "sA" "A" "c1").1.rooms "c1" "sA" = true ∧
    ((sendMessage 2 3600 (joinChat exState "sA" "A" "c1").1 "A" "Alice" "citizen"
        ⟨"c1", "Hello", "text", some "t1"⟩ 7 true).2.filter
      (fun e => deliversTo (joinChat exState "sA" "A" "c1").1.rooms "sA" "sA" e
        && isNewMessageEv e)).length = 1 := by
  have h := c5_join_send_broadcast_once 2 3600 exState "sA" "A" "Alice" "citizen"
    "c1" "Hello" "text" (some "t1") 7 exChat (by decide) (by decide)
    ⟨'H', by decide, by decide⟩ (by decide) (by decide)
  exact ⟨h.1, h.2 "sA" h.1⟩

/-! ## C6 — optimistic-message reconciliation in the client -/

theorem jsEqOptStr_some_right_false {o : Option String} {x : String}
    (h : o ≠ some x) : jsEqOptStr o (some x) = false := by
  cases o with
  | none => rfl
  | some y =>
      have hyx : y ≠ x := fun hyx => h (by rw [hyx])
      simp [jsEqOptStr, hyx]

theorem map_replace_no_match (g : ClientMsg → ClientMsg) (x : String)
    (l : List ClientMsg) (h : ∀ m ∈ l, m.tempId ≠ some x) :
    l.map (fun m => if jsEqOptStr m.tempId (some x) = true then g m else m) = l := by
  induction l with
  | nil => rfl
  | cons a t ih =>
      simp only [List.map_cons]
      rw [jsEqOptStr_some_right_false (h a (List.mem_cons_self a t))]
      simp only [Bool.false_eq_true, if_false]
      rw [ih (fun m hm => h m (List.mem_cons_of_mem a hm))]

theorem countTempId_append_single (pre post : List ClientMsg) (r : ClientMsg)
    (x : String) (hpre : ∀ m' ∈ pre, m'.tempId ≠ some x)
    (hpost : ∀ m' ∈ post, m'.tempId ≠ some x) (hr : r.tempId = some x) :
    countTempId (pre ++ r :: post) x = 1 := by
  unfold countTempId
  rw [List.filter_append, List.filter_cons]
  have hfpre : pre.filter (fun m => m.tempId == some x) = [] :=
    List.filter_eq_nil_iff.2 (fun a ha => by simp [hpre a ha])
  have hfpost : post.filter (fun m => m.tempId == some x) = [] :=
    List.filter_eq_nil_iff.2 (fun a ha => by simp [hpost a ha])
  simp [hfpre, hfpost, hr]

/-- C6: in the client session controller, with exactly one locally pending
optimistic message carrying correlation id `x`: a broadcast `new_message`
whose correlation id equals `x` replaces that entry in place (status `sent`)
rather than appending a duplicate, and a `message_sent` confirmation matching
`x` updates that entry's persistent id, timestamp and status in place —
both paths leave exactly one displayed message carrying `x`. -/
theorem c6_reconciliation (cid x : String) (hx : x ≠ "")
    (pre post : List ClientMsg) (m : ClientMsg) (hm : m.tempId = some x)
    (hpre : ∀ m' ∈ pre, m'.tempId ≠ some x)
    (hpost : ∀ m' ∈ post, m'.tempId ≠ some x)
    (d : NewMsgData) (hd : d.chatId = cid) (hdt : d.tempId = some x)
    (e : MessageSentData) (het : e.tempId = some x) :
    onNewMessage cid (pre ++ m :: post) d
      = pre ++ clientMsgOfData d "sent" :: post ∧
    (clientMsgOfData d "sent").status = "sent" ∧
    (clientMsgOfData d "sent").tempId = some x ∧
    countTempId (onNewMessage cid (pre ++ m :: post) d) x = 1 ∧
    onMessageSent (pre ++ m :: post) e
      = pre ++ { m with mid := some e.messageId, status := "sent", timestamp := e.timestamp } :: post ∧
    countTempId (onMessageSent (pre ++ m :: post) e) x = 1 := by
  have hself : jsEqOptStr (some x) (some x) = true := by simp [jsEqOptStr]
  have htruthy : jsTruthy (some x) = true := by simp [jsTruthy, hx]
  have hex : (pre ++ m :: post).any (fun q =>
      jsEqOptNat q.mid d.mid || (jsTruthy q.tempId && jsEqOptStr q.tempId d.tempId))
      = true := by
    refine List.any_eq_true.2 ⟨m, by simp, ?_⟩
    rw [hm, hdt, htruthy, hself]
    simp
  have hnew : onNewMessage cid (pre ++ m :: post) d
      = pre ++ clientMsgOfData d "sent" :: post := by
    unfold onNewMessage
    rw [if_pos (by simp [hd]), if_pos hex, hdt]
    rw [List.map_append, List.map_cons]
    rw [map_replace_no_match _ x pre hpre, map_replace_no_match _ x post hpost]
    rw [hm, hself]
    simp
  have hsent : onMessageSent (pre ++ m :: post) e
      = pre ++ { m with mid := some e.messageId, status := "sent", timestamp := e.timestamp } :: post := by
    unfold onMessageSent
    rw [if_pos (by rw [het]; exact htruthy), het]
    rw [List.map_append, List.map_cons]
    rw [map_replace_no_match _ x pre hpre, map_replace_no_match _ x post hpost]
    rw [hm, hself]
    simp
  refine ⟨hnew, rfl, by simp [clientMsgOfData, hdt], ?_, hsent, ?_⟩
  · rw [hnew]
    exact countTempId_append_single pre post _ x hpre hpost
      (by simp [clientMsgOfData, hdt])
  · rw [hsent]
    exact countTempId_append_single pre post _ x hpre hpost (by simp [hm])

/-- Witness for C6 at a single pending optimistic message with tempId `t1`. -/
theorem c6_witness :
    onNewMessage "c1" [⟨none, some "t1", "c1", "Hello", "A", 5, "sending"⟩]
        ⟨some 7, "c1", "Hello", "text", "A", "Alice", "citizen", 100, false, some "t1"⟩
      = [clientMsgOfData
          ⟨some 7, "c1", "Hello", "text", "A", "Alice", "citizen", 100, false, some "t1"⟩
          "sent"] ∧
    countTempId (onNewMessage "c1" [⟨none, some "t1", "c1", "Hello", "A", 5, "sending"⟩]
        ⟨some 7, "c1", "Hello", "text", "A", "Alice", "citizen", 100, false, some "t1"⟩)
        "t1" = 1 ∧
    onMessageSent [⟨none, some "t1", "c1", "Hello", "A", 5, "sending"⟩] ⟨true, 7, 100, some "t1"⟩
      = [⟨some 7, some "t1", "c1", "Hello", "A", 100, "sent"⟩] ∧
    countTempId (onMessageSent [⟨none, some "t1", "c1", "Hello", "A", 5, "sending"⟩]
        ⟨true, 7, 100, some "t1"⟩) "t1" = 1 := by
  have h := c6_reconciliation "c1" "t1" (by decide) [] []
    ⟨none, some "t1", "c1", "Hello", "A", 5, "sending"⟩ rfl
    (by intro m' hm'; simp at hm') (by intro m' hm'; simp at hm')
    ⟨some 7, "c1", "Hello", "text", "A", "Alice", "citizen", 100, false, some "t1"⟩
    rfl rfl ⟨true, 7, 100, some "t1"⟩ rfl
  exact ⟨h.1, h.2.2.2.1, h.2.2.2.2.1, h.2.2.2.2.2⟩

end ChatCore
